import Mathlib

/-!
Verification development for the GenomeLoader batch generators
(`genomeloader/generator.py`): a shallow embedding of the
`MultiBedGenerator` and `BedGraphGenerator` classes and proofs about
their epoch scheduling, negative-pool reset, batch slicing, jitter and
labelling behaviour.

Modelling conventions:
* Python `int` values are `ℤ` (or `ℕ` for lengths and indices).
* Python float arithmetic in this file only ever produces dyadic
  rationals of small magnitude (halves of integers), which floats
  represent exactly, so floats are modelled as `ℚ`.
* Python `int(x)` on a float truncates toward zero: `pyTrunc`.
* `numpy.random.randint(low, high)` truncates its float bounds toward
  zero and then draws an integer in `[trunc low, trunc high)`; the set
  of values it can return is the predicate `possibleDraw`.
* Interval tables (pandas dataframes / BED files) are `List Interval`;
  Python slice `l[a:b]` with non-negative bounds is `pySlice`.
* External pybedtools operations (slop, merging cat) are collaborator
  functions supplied as parameters; `cat(..., postmerge=False)` is list
  concatenation of the interval records.
* A raised Python exception is an `Except.error` carrying `PyExn`.
-/

namespace GenomeLoader

/-- Python `int(x)` applied to a float: truncation toward zero. -/
def pyTrunc (q : ℚ) : ℤ := if 0 ≤ q then ⌊q⌋ else ⌈q⌉

theorem pyTrunc_of_nonneg {q : ℚ} (h : 0 ≤ q) : pyTrunc q = ⌊q⌋ := by
  simp [pyTrunc, h]

theorem pyTrunc_neg (q : ℚ) : pyTrunc (-q) = -pyTrunc q := by
  unfold pyTrunc
  rcases lt_trichotomy q 0 with h | h | h
  · rw [if_pos (by linarith), if_neg (by linarith), Int.floor_neg]
  · simp [h]
  · rw [if_neg (by linarith), if_pos (by linarith), Int.ceil_neg]

theorem pyTrunc_le {q : ℚ} (h : 0 ≤ q) : (pyTrunc q : ℚ) ≤ q := by
  rw [pyTrunc_of_nonneg h]
  exact Int.floor_le q

theorem pyTrunc_nonneg {q : ℚ} (h : 0 ≤ q) : 0 ≤ pyTrunc q := by
  rw [pyTrunc_of_nonneg h]
  exact Int.floor_nonneg.mpr h

theorem pyTrunc_nonpos {q : ℚ} (h : q < 0) : pyTrunc q ≤ 0 := by
  unfold pyTrunc
  rw [if_neg (by linarith)]
  exact Int.ceil_le.mpr (by exact_mod_cast h.le)

/-- One genomic interval row `(chrom, start, end)`; the BED `end` column
is called `stop` because `end` is a Lean keyword. -/
structure Interval where
  chrom : String
  start : ℤ
  stop : ℤ
deriving DecidableEq, Repr

/-- Python slice `l[a:b]` for non-negative bounds `a`, `b`. -/
def pySlice {α : Type} (l : List α) (a b : ℕ) : List α :=
  (l.take b).drop a

/-- Source `MultiBedGenerator.__len__` (line 64):
`int(np.ceil(len(self.intervals_df_epoch_i) / self.batch_size))`. -/
def lenEpoch (n bs : ℕ) : ℕ :=
  (⌈(n : ℚ) / (bs : ℚ)⌉).toNat

/-- Source `MultiBedGenerator.__getitem__` (line 70): the rows of batch
`idx`, `self.intervals_df_epoch_i[index*batch_size:(index+1)*batch_size]`. -/
def getBatchRows {α : Type} (table : List α) (bs idx : ℕ) : List α :=
  pySlice table (idx * bs) ((idx + 1) * bs)

theorem lenEpoch_eq_ceil (n bs : ℕ) (h : 0 < bs) :
    (lenEpoch n bs : ℤ) = ⌈(n : ℚ) / (bs : ℚ)⌉ := by
  unfold lenEpoch
  refine Int.toNat_of_nonneg ?_
  refine Int.ceil_nonneg ?_
  positivity

theorem lenEpoch_eq_div (n bs : ℕ) (h : 0 < bs) :
    lenEpoch n bs = (n + bs - 1) / bs := by
  have hb : (0 : ℚ) < (bs : ℚ) := by exact_mod_cast h
  set z : ℕ := (n + bs - 1) / bs with hz
  have key : ∀ w r : ℕ, w + r = n + bs - 1 → r < bs → n ≤ w ∧ w < n + bs := by
    intro w r h1 h2
    omega
  have hdm : bs * z + (n + bs - 1) % bs = n + bs - 1 := by
    rw [hz]
    exact Nat.div_add_mod _ _
  obtain ⟨hnle, hwlt⟩ := key _ _ hdm (Nat.mod_lt _ h)
  have hq1 : (n : ℚ) ≤ (bs : ℚ) * (z : ℚ) := by exact_mod_cast hnle
  have hq2 : (bs : ℚ) * (z : ℚ) < (n : ℚ) + (bs : ℚ) := by exact_mod_cast hwlt
  have hcast : (lenEpoch n bs : ℤ) = ((z : ℕ) : ℤ) := by
    rw [lenEpoch_eq_ceil n bs h, Int.ceil_eq_iff]
    push_cast
    constructor
    · rw [lt_div_iff₀ hb]
      nlinarith
    · rw [div_le_iff₀ hb]
      nlinarith
  exact_mod_cast hcast

theorem lenEpoch_zero (bs : ℕ) (h : 0 < bs) : lenEpoch 0 bs = 0 := by
  rw [lenEpoch_eq_div 0 bs h]
  simpa using Nat.div_eq_of_lt (by omega)

theorem lenEpoch_succ (n bs : ℕ) (hn : 0 < n) (h : 0 < bs) :
    lenEpoch n bs = lenEpoch (n - bs) bs + 1 := by
  rw [lenEpoch_eq_div n bs h, lenEpoch_eq_div (n - bs) bs h]
  rcases le_or_lt n bs with hle | hlt
  · have hl : n + bs - 1 = (n - 1) + bs := by omega
    rw [hl, Nat.add_div_right _ h]
    have h0 : n - bs = 0 := by omega
    rw [h0]
    have : (0 + bs - 1) / bs = 0 := Nat.div_eq_of_lt (by omega)
    rw [this]
    have : (n - 1) / bs = 0 := Nat.div_eq_of_lt (by omega)
    rw [this]
  · have hl : n + bs - 1 = (n - 1) + bs := by omega
    have hr : n - bs + bs - 1 = (n - bs - 1) + bs := by omega
    rw [hl, hr, Nat.add_div_right _ h, Nat.add_div_right _ h]
    have : n - 1 = (n - bs - 1) + bs := by omega
    rw [this, Nat.add_div_right _ h]

theorem getBatchRows_eq_drop_take {α : Type} (table : List α) (bs idx : ℕ) :
    getBatchRows table bs idx = (table.drop (idx * bs)).take bs := by
  unfold getBatchRows pySlice
  have hmul : (idx + 1) * bs - idx * bs = bs := by
    rw [Nat.add_mul, one_mul, Nat.add_sub_cancel_left]
  rw [List.drop_take, hmul]

theorem getBatchRows_succ {α : Type} (table : List α) (bs idx : ℕ) :
    getBatchRows table bs (idx + 1) = getBatchRows (table.drop bs) bs idx := by
  rw [getBatchRows_eq_drop_take, getBatchRows_eq_drop_take]
  have : (idx + 1) * bs = bs + idx * bs := by ring
  rw [this, ← List.drop_drop]

theorem flatten_batches {α : Type} (bs : ℕ) (h : 0 < bs) :
    ∀ (k : ℕ) (table : List α), lenEpoch table.length bs = k →
      ((List.range k).map (getBatchRows table bs)).flatten = table := by
  intro k
  induction k with
  | zero =>
    intro table hk
    have : table.length = 0 := by
      rw [lenEpoch_eq_div _ _ h] at hk
      have := (Nat.div_eq_zero_iff h).mp hk
      omega
    simp [List.length_eq_zero.mp this]
  | succ k ih =>
    intro table hk
    have hn : 0 < table.length := by
      by_contra hne
      push_neg at hne
      have h0 : table.length = 0 := by omega
      rw [h0, lenEpoch_zero bs h] at hk
      exact Nat.succ_ne_zero k hk.symm
    have hstep : ∀ i, (getBatchRows table bs ∘ Nat.succ) i
        = getBatchRows (table.drop bs) bs i := by
      intro i
      simp only [Function.comp]
      exact getBatchRows_succ table bs i
    have hlen : lenEpoch (table.drop bs).length bs = k := by
      rw [List.length_drop]
      have := lenEpoch_succ table.length bs hn h
      omega
    have h0 : getBatchRows table bs 0 = table.take bs := by
      rw [getBatchRows_eq_drop_take]
      simp
    rw [List.range_succ_eq_map, List.map_cons, List.map_map, List.flatten_cons,
      List.map_congr_left (fun i _ => hstep i), ih _ hlen, h0, List.take_append_drop]

/-- Source `MultiBedGenerator.__getitem__` line 78:
`midpt = (chrom_start + chrom_end) / 2` (Python true division; the result
is an exact dyadic float, modelled as `ℚ`). -/
def midpoint (chrom_start chrom_end : ℤ) : ℚ :=
  ((chrom_start : ℚ) + (chrom_end : ℚ)) / 2

/-- Source lines 79-85: the `shift_size` of one interval row.
For `sliding` it is `np.max([midpt - chrom_start, int((window_len - interval_len) / 2)])`
with `interval_len = chrom_end - chrom_start`; for `detection` it is
`output_seq_len / 2`; otherwise `0`. -/
def shift_size (window_len output_seq_len : ℤ) (jitter_mode : Option String)
    (chrom_start chrom_end : ℤ) : ℚ :=
  if jitter_mode = some "sliding" then
    max (midpoint chrom_start chrom_end - (chrom_start : ℚ))
      ((pyTrunc (((window_len : ℚ) - ((chrom_end : ℚ) - (chrom_start : ℚ))) / 2) : ℚ))
  else if jitter_mode = some "detection" then (output_seq_len : ℚ) / 2
  else 0

/-- Source line 86: `s = np.random.randint(-shift_size, shift_size + 1)`.
numpy truncates the float bounds toward zero and then draws an integer in
`[trunc low, trunc high)`; this predicate holds exactly of the values the
call can return. -/
def possibleDraw (sz : ℚ) (s : ℤ) : Prop :=
  pyTrunc (-sz) ≤ s ∧ s < pyTrunc (sz + 1)

instance (sz : ℚ) (s : ℤ) : Decidable (possibleDraw sz s) := by
  unfold possibleDraw
  infer_instance

/-- Shift bound as the spec words it (spec section 4.3 step 2 and section 8):
for `sliding` the bound is `max(distance from interval midpoint to start,
half of (window_len − interval_len))`, with an exact (untruncated) half;
for `detection` it is `output_seq_len/2`; for no jitter it is `0`. -/
def specShiftBound (window_len output_seq_len : ℤ) (jitter_mode : Option String)
    (chrom_start chrom_end : ℤ) : ℚ :=
  if jitter_mode = some "sliding" then
    max (midpoint chrom_start chrom_end - (chrom_start : ℚ))
      (((window_len : ℚ) - ((chrom_end : ℚ) - (chrom_start : ℚ))) / 2)
  else if jitter_mode = some "detection" then (output_seq_len : ℚ) / 2
  else 0

/-- Source lines 88-89: `start = int(midpt - self.seq_len / 2)`,
`stop = start + self.seq_len` — the genome/signal fetch window of one row
after a jitter shift `s` has been added to the midpoint. -/
def fetchCoords (seq_len : ℤ) (chrom : String) (chrom_start chrom_end s : ℤ) :
    String × ℤ × ℤ :=
  let m := midpoint chrom_start chrom_end + (s : ℚ)
  let st := pyTrunc (m - (seq_len : ℚ) / 2)
  (chrom, st, st + seq_len)

theorem possibleDraw_bound {sz : ℚ} {s : ℤ} (hsz : 0 ≤ sz)
    (h : possibleDraw sz s) : -sz ≤ (s : ℚ) ∧ (s : ℚ) ≤ sz := by
  obtain ⟨h1, h2⟩ := h
  constructor
  · rw [pyTrunc_neg] at h1
    have hle : (pyTrunc sz : ℚ) ≤ sz := pyTrunc_le hsz
    have hc : ((-pyTrunc sz : ℤ) : ℚ) ≤ (s : ℚ) := by exact_mod_cast h1
    push_cast at hc
    linarith
  · have h1p : (0 : ℚ) ≤ sz + 1 := by linarith
    rw [pyTrunc_of_nonneg h1p] at h2
    have hsucc : s + 1 ≤ ⌊sz + 1⌋ := h2
    have hfl : ((⌊sz + 1⌋ : ℤ) : ℚ) ≤ sz + 1 := Int.floor_le _
    have hc : ((s : ℚ) + 1) ≤ ((⌊sz + 1⌋ : ℤ) : ℚ) := by exact_mod_cast hsucc
    linarith

theorem midpoint_sub_start_nonneg {chrom_start chrom_end : ℤ}
    (hiv : chrom_start ≤ chrom_end) :
    0 ≤ midpoint chrom_start chrom_end - (chrom_start : ℚ) := by
  unfold midpoint
  have h : (chrom_start : ℚ) ≤ (chrom_end : ℚ) := by exact_mod_cast hiv
  linarith

theorem shift_size_nonneg (window_len output_seq_len : ℤ) (jitter_mode : Option String)
    {chrom_start chrom_end : ℤ} (hiv : chrom_start ≤ chrom_end)
    (hosl : 0 ≤ output_seq_len) :
    0 ≤ shift_size window_len output_seq_len jitter_mode chrom_start chrom_end := by
  unfold shift_size
  split
  · exact le_max_of_le_left (midpoint_sub_start_nonneg hiv)
  · split
    · have h : (0 : ℚ) ≤ (output_seq_len : ℚ) := by exact_mod_cast hosl
      linarith
    · exact le_refl 0

theorem shift_size_le_spec (window_len output_seq_len : ℤ) (jitter_mode : Option String)
    (chrom_start chrom_end : ℤ) (hiv : chrom_start ≤ chrom_end) :
    shift_size window_len output_seq_len jitter_mode chrom_start chrom_end
      ≤ specShiftBound window_len output_seq_len jitter_mode chrom_start chrom_end := by
  unfold shift_size specShiftBound
  by_cases h1 : jitter_mode = some "sliding"
  · simp only [h1, if_pos]
    set c : ℚ := ((window_len : ℚ) - ((chrom_end : ℚ) - (chrom_start : ℚ))) / 2 with hc
    rcases le_or_lt 0 c with hpos | hneg
    · exact max_le_max (le_refl _) (pyTrunc_le hpos)
    · have ht : (pyTrunc c : ℚ) ≤ 0 := by exact_mod_cast pyTrunc_nonpos hneg
      have ha := midpoint_sub_start_nonneg hiv
      exact max_le (le_max_left _ _) (le_trans (le_trans ht ha) (le_max_left _ _))
  · simp only [h1, if_neg, if_false]
    split
    · exact le_refl _
    · exact le_refl 0

/-- C4: for every interval row processed by `get_batch`, the jittered
midpoint lies within `[original_midpoint − shift_bound,
original_midpoint + shift_bound]`, where `shift_bound` is the spec's
per-mode formula (`max(midpt − start, (window_len − interval_len)/2)` for
`sliding`, `output_seq_len/2` for `detection`, `0` for no jitter). -/
theorem c4_jitter_midpoint_bound
    (window_len output_seq_len : ℤ) (jitter_mode : Option String)
    (chrom_start chrom_end s : ℤ)
    (hiv : chrom_start ≤ chrom_end) (hosl : 0 ≤ output_seq_len)
    (hdraw : possibleDraw
      (shift_size window_len output_seq_len jitter_mode chrom_start chrom_end) s) :
    midpoint chrom_start chrom_end
        - specShiftBound window_len output_seq_len jitter_mode chrom_start chrom_end
      ≤ midpoint chrom_start chrom_end + (s : ℚ)
    ∧ midpoint chrom_start chrom_end + (s : ℚ)
      ≤ midpoint chrom_start chrom_end
        + specShiftBound window_len output_seq_len jitter_mode chrom_start chrom_end := by
  have hσ0 : 0 ≤ shift_size window_len output_seq_len jitter_mode chrom_start chrom_end :=
    shift_size_nonneg window_len output_seq_len jitter_mode hiv hosl
  have hσB := shift_size_le_spec window_len output_seq_len jitter_mode
    chrom_start chrom_end hiv
  obtain ⟨hl, hr⟩ := possibleDraw_bound hσ0 hdraw
  constructor <;> linarith

/-- C4 witness at a concrete input (sliding mode, interval `0..10`,
`window_len = 200`, draw `s = 95`). -/
theorem c4_jitter_midpoint_bound_witness :
    midpoint 0 10 - specShiftBound 200 1024 (some "sliding") 0 10
      ≤ midpoint 0 10 + ((95 : ℤ) : ℚ)
    ∧ midpoint 0 10 + ((95 : ℤ) : ℚ)
      ≤ midpoint 0 10 + specShiftBound 200 1024 (some "sliding") 0 10 :=
  c4_jitter_midpoint_bound 200 1024 (some "sliding") 0 10 95
    (by decide) (by decide)
    (by
      have h : shift_size 200 1024 (some "sliding") 0 10 = 95 := by
        norm_num [shift_size, midpoint, pyTrunc]
      rw [possibleDraw, h]
      norm_num [pyTrunc, Int.ceil_neg])

/-- C10: with `jitter_mode` `None` the only value `np.random.randint(-0, 1)`
can draw is `0`, so the fetch coordinates of a row are a deterministic
function of the row and the configuration: any two draws yield identical
`(chrom, start, stop)` windows. -/
theorem c10_jitter_none_deterministic
    (window_len output_seq_len seq_len : ℤ) (chrom : String)
    (chrom_start chrom_end s₁ s₂ : ℤ)
    (h1 : possibleDraw (shift_size window_len output_seq_len none chrom_start chrom_end) s₁)
    (h2 : possibleDraw (shift_size window_len output_seq_len none chrom_start chrom_end) s₂) :
    s₁ = 0 ∧ fetchCoords seq_len chrom chrom_start chrom_end s₁
      = fetchCoords seq_len chrom chrom_start chrom_end s₂ := by
  have hz : shift_size window_len output_seq_len none chrom_start chrom_end = 0 := by
    simp [shift_size]
  have hs : ∀ s : ℤ, possibleDraw (0 : ℚ) s → s = 0 := by
    intro s hdraw
    obtain ⟨ha, hb⟩ := hdraw
    have h0 : pyTrunc (-(0 : ℚ)) = 0 := by norm_num [pyTrunc]
    have h1' : pyTrunc ((0 : ℚ) + 1) = 1 := by norm_num [pyTrunc]
    rw [h0] at ha
    rw [h1'] at hb
    omega
  rw [hz] at h1 h2
  have e1 := hs _ h1
  have e2 := hs _ h2
  exact ⟨e1, by rw [e1, e2]⟩

/-- C10 witness at a concrete input. -/
theorem c10_jitter_none_deterministic_witness :
    (0 : ℤ) = 0 ∧ fetchCoords 1024 "chr1" 1000 1100 0 = fetchCoords 1024 "chr1" 1000 1100 0 :=
  c10_jitter_none_deterministic 200 1024 1024 "chr1" 1000 1100 0 0
    (by
      have h : shift_size 200 1024 none 1000 1100 = 0 := by simp [shift_size]
      rw [possibleDraw, h]
      norm_num [pyTrunc])
    (by
      have h : shift_size 200 1024 none 1000 1100 = 0 := by simp [shift_size]
      rw [possibleDraw, h]
      norm_num [pyTrunc])

/-- Source line 101: `start_window = int(midpt - self.window_len / 2)`. -/
def windowStart (midpt : ℚ) (window_len : ℤ) : ℤ :=
  pyTrunc (midpt - (window_len : ℚ) / 2)

/-- Source line 103, left of the comparison: the summed annotation
coverage `bed[chrom, start_window:stop_window].sum()` over the
`window_len`-long window centred on the jittered midpoint; `bed` gives
the per-position annotation value at each genomic position. -/
def windowCoverage (bed : ℤ → ℕ) (midpt : ℚ) (window_len : ℤ) : ℕ :=
  ((List.range window_len.toNat).map
    (fun i => bed (windowStart midpt window_len + (i : ℤ)))).sum

/-- Source line 103: the boolean label
`bed[chrom, start_window:stop_window].sum() >= self.window_len / 2`
(`window_len / 2` is Python true division, an exact rational). -/
def windowLabel (bed : ℤ → ℕ) (midpt : ℚ) (window_len : ℤ) : Bool :=
  decide ((window_len : ℚ) / 2 ≤ (windowCoverage bed midpt window_len : ℚ))

/-- C5: with `return_output` true and `return_sequences` false, the label
of an interval for a bed source is true iff the summed coverage over the
`window_len` window centred on the jittered midpoint is at least
`window_len/2`; with `window_len = 200`, coverage `100` gives `true` and
coverage `99` gives `false`. -/
theorem c5_majority_label (bed : ℤ → ℕ) (midpt : ℚ) :
    (∀ window_len : ℤ, windowLabel bed midpt window_len = true
      ↔ (window_len : ℚ) / 2 ≤ (windowCoverage bed midpt window_len : ℚ))
    ∧ (windowCoverage bed midpt 200 = 100 → windowLabel bed midpt 200 = true)
    ∧ (windowCoverage bed midpt 200 = 99 → windowLabel bed midpt 200 = false) := by
  refine ⟨fun window_len => by simp [windowLabel], ?_, ?_⟩
  · intro h
    simp only [windowLabel, h]
    norm_num
  · intro h
    simp only [windowLabel, h]
    norm_num

/-- A bed source covering positions `0 ≤ i < 100` once. -/
def bedEx100 : ℤ → ℕ := fun i => if 0 ≤ i ∧ i < 100 then 1 else 0

/-- A bed source covering positions `0 ≤ i < 99` once. -/
def bedEx99 : ℤ → ℕ := fun i => if 0 ≤ i ∧ i < 99 then 1 else 0

set_option maxRecDepth 4000 in
/-- C5 witness: concrete coverages 100 and 99 in a 200-wide window. -/
theorem c5_majority_label_witness :
    windowLabel bedEx100 100 200 = true ∧ windowLabel bedEx99 100 200 = false :=
  ⟨(c5_majority_label bedEx100 100).2.1 (by
      have hws : windowStart (100 : ℚ) 200 = 0 := by norm_num [windowStart, pyTrunc]
      simp only [windowCoverage, hws]
      decide),
   (c5_majority_label bedEx99 100).2.2 (by
      have hws : windowStart (100 : ℚ) 200 = 0 := by norm_num [windowStart, pyTrunc]
      simp only [windowCoverage, hws]
      decide)⟩

/-- Source `BedGraphGenerator.__getitem__` lines 188-194: the fetch
window of one row: the row's own span when `seq_len` is `None`, else
`start = int(midpt - seq_len / 2)`, `stop = start + seq_len`. -/
def bgWindow (seq_len : Option ℤ) (chrom_start chrom_end : ℤ) : ℤ × ℤ :=
  match seq_len with
  | none => (chrom_start, chrom_end)
  | some L =>
    let st := pyTrunc (midpoint chrom_start chrom_end - (L : ℚ) / 2)
    (st, st + L)

/-- A label produced by the BedGraph variant. -/
inductive BgLabel where
  | scalar : ℚ → BgLabel
  | perPos : List ℚ → BgLabel
deriving DecidableEq

/-- Source lines 187 and 198-200: the label of one row is the interval's
stored value, unless `return_sequences` is set, in which case it is the
per-position track values `self.bedgraph[chrom, start:stop]` over the
fetch window (`track` gives the track value at each position). -/
def bgLabelOf (return_sequences : Bool) (stored : ℚ) (track : ℤ → ℚ)
    (w : ℤ × ℤ) : BgLabel :=
  if return_sequences then
    BgLabel.perPos ((List.range (w.2 - w.1).toNat).map (fun i => track (w.1 + (i : ℤ))))
  else BgLabel.scalar stored

/-- C9: the BedGraph variant fetches the row's own `[start, end)` span
when `seq_len` is `None`, and otherwise a window of exactly `seq_len`
positions starting at `int(midpoint − seq_len/2)`; the label is the
stored value unless `return_sequences` is true, in which case it is the
per-position track values over the same fetch window. -/
theorem c9_bedgraph_fetch (seq_len : Option ℤ) (chrom_start chrom_end : ℤ)
    (rs : Bool) (stored : ℚ) (track : ℤ → ℚ) :
    (seq_len = none → bgWindow seq_len chrom_start chrom_end = (chrom_start, chrom_end))
    ∧ (∀ L, seq_len = some L →
        (bgWindow seq_len chrom_start chrom_end).1
            = pyTrunc (midpoint chrom_start chrom_end - (L : ℚ) / 2)
        ∧ (bgWindow seq_len chrom_start chrom_end).2
            = (bgWindow seq_len chrom_start chrom_end).1 + L)
    ∧ (rs = false → bgLabelOf rs stored track (bgWindow seq_len chrom_start chrom_end)
        = BgLabel.scalar stored)
    ∧ (rs = true → bgLabelOf rs stored track (bgWindow seq_len chrom_start chrom_end)
        = BgLabel.perPos ((List.range ((bgWindow seq_len chrom_start chrom_end).2
              - (bgWindow seq_len chrom_start chrom_end).1).toNat).map
            (fun i => track ((bgWindow seq_len chrom_start chrom_end).1 + (i : ℤ))))) := by
  refine ⟨?_, ?_, ?_, ?_⟩
  · intro h
    subst h
    rfl
  · intro L h
    subst h
    exact ⟨rfl, rfl⟩
  · intro h
    subst h
    rfl
  · intro h
    subst h
    rfl

/-- C9 witness: a concrete row with `seq_len = 1024`. -/
theorem c9_bedgraph_fetch_witness :
    (bgWindow (some 1024) 1000 1100).1 = pyTrunc (midpoint 1000 1100 - (1024 : ℚ) / 2)
    ∧ (bgWindow (some 1024) 1000 1100).2 = (bgWindow (some 1024) 1000 1100).1 + 1024 :=
  (c9_bedgraph_fetch (some 1024) 1000 1100 false 0 (fun _ => 0)).2.1 1024 rfl

/-- C3: for every epoch interval table and every `batch_size > 0`, the
batch count `__len__` equals `ceil(len(table)/batch_size)`, batch `i`
selects exactly the rows `[i*batch_size, (i+1)*batch_size)` (the last
batch may be shorter), and concatenating the batches in order
reconstructs the table in its original row order. -/
theorem c3_batches {α : Type} (table : List α) (bs : ℕ) (h : 0 < bs) :
    (lenEpoch table.length bs : ℤ) = ⌈(table.length : ℚ) / (bs : ℚ)⌉
    ∧ (∀ idx : ℕ, getBatchRows table bs idx = (table.drop (idx * bs)).take bs)
    ∧ ((List.range (lenEpoch table.length bs)).map (getBatchRows table bs)).flatten
        = table :=
  ⟨lenEpoch_eq_ceil _ _ h, fun idx => getBatchRows_eq_drop_take table bs idx,
   flatten_batches bs h _ table rfl⟩

/-- C3 witness: a 3-row table with batch size 2. -/
theorem c3_batches_witness :
    (lenEpoch ([10, 20, 30] : List ℕ).length 2 : ℤ)
        = ⌈((([10, 20, 30] : List ℕ).length : ℕ) : ℚ) / (2 : ℚ)⌉
    ∧ (∀ idx : ℕ, getBatchRows ([10, 20, 30] : List ℕ) 2 idx
        = (([10, 20, 30] : List ℕ).drop (idx * 2)).take 2)
    ∧ ((List.range (lenEpoch ([10, 20, 30] : List ℕ).length 2)).map
        (getBatchRows ([10, 20, 30] : List ℕ) 2)).flatten = [10, 20, 30] :=
  c3_batches [10, 20, 30] 2 (by decide)

/-- C8 counterexample: a 3-row table with batch size 2 has batch count 2,
yet `get_batch(2)` raises no out-of-bounds error — the slice `[4:6]` of
the table is empty and an empty batch is produced. -/
theorem c8_out_of_range_cex :
    lenEpoch 3 2 = 2 ∧ getBatchRows ([10, 20, 30] : List ℕ) 2 2 = [] := by
  constructor
  · rw [lenEpoch_eq_div 3 2 (by decide)]
  · decide

/-- C8 amended: `get_batch` does not report an out-of-bounds error for an
index at or past the batch count; the Python slice is empty there, so an
empty batch is returned. -/
theorem c8_out_of_range_empty {α : Type} (table : List α) (bs idx : ℕ)
    (hbs : 0 < bs) (hidx : lenEpoch table.length bs ≤ idx) :
    getBatchRows table bs idx = [] := by
  rw [getBatchRows_eq_drop_take]
  have hlen : table.length ≤ idx * bs := by
    rw [lenEpoch_eq_div _ _ hbs] at hidx
    have h1 : (table.length + bs - 1) / bs < idx + 1 := Nat.lt_succ_of_le hidx
    have h2 : table.length + bs - 1 < (idx + 1) * bs := (Nat.div_lt_iff_lt_mul hbs).mp h1
    have h3 : (idx + 1) * bs = idx * bs + bs := by rw [Nat.add_mul, one_mul]
    rw [h3] at h2
    have key : ∀ w, table.length + bs - 1 < w + bs → table.length ≤ w := by
      intro w hw
      omega
    exact key _ h2
  rw [List.drop_eq_nil_of_le hlen]
  simp

/-- C8 amended-claim witness at a concrete out-of-range index. -/
theorem c8_out_of_range_empty_witness :
    getBatchRows ([10, 20, 30] : List ℕ) 2 2 = [] :=
  c8_out_of_range_empty [10, 20, 30] 2 2 (by decide)
    (by
      show lenEpoch 3 2 ≤ 2
      rw [lenEpoch_eq_div 3 2 (by decide)])

/-- A raised Python exception. -/
inductive PyExn where
  | attrError : String → PyExn
  | valueError : String → PyExn
deriving DecidableEq

/-- External pybedtools operations used by `_reset_negatives` (interval
algebra is an out-of-scope collaborator, spec section 6):
`slopHalfWin` is `master_bed.bt.slop(b=window_len/2)` and `mergeCat` is
the merging `cat` (postmerge left at its default). -/
structure ExtOps where
  slopHalfWin : List Interval → List Interval
  mergeCat : List Interval → List Interval → List Interval

/-- The attributes of a `MultiBedGenerator` read or written by
`_reset_negatives` and `on_epoch_end`. `__init__` (source lines 15-58)
assigns `beds`, `master_bed`, `genome`, `signals`, `blacklist`,
`batch_size`, `epoch_i`, `intervals_df_epoch_i`, `window_len`,
`seq_len`, `output_seq_len`, the negatives ratio (field `negRatioVal`
here), `return_sequences`, `return_output`, `jitter_mode`, `shuffle`,
`chromsizes`, `negative_windows_epoch_i` and `cumulative_excl_bt`; in
particular there is no attribute named `bed`. -/
structure GenState where
  master_bed : List Interval
  blacklist : Option (List Interval)
  negRatioVal : ℚ
  window_len : ℤ
  jitter_mode : Option String
  shuffle : Bool
  epoch_i : ℤ
  intervals_df_epoch_i : Option (List Interval)
  negative_windows_epoch_i : List Interval
  cumulative_excl_bt : List Interval
deriving DecidableEq

/-- Source lines 122-128: the fresh negative pool. For a ratio above 1
the source evaluates `self.bed.bt` inside
`pbt.BedTool.cat(*(self.negatives_ratio * [self.bed.bt]), postmerge=False)`,
and the generator object has no attribute `bed` (the merged positive set
is stored as `master_bed`), so the attribute lookup raises
`AttributeError` before any pool is built; for ratio 1 the pool aliases
the merged positive set; otherwise the pool is empty. -/
def resetPool (r : ℚ) (master : List Interval) : Except PyExn (List Interval) :=
  if 1 < r then Except.error (PyExn.attrError "bed")
  else if r = 1 then Except.ok master
  else Except.ok []

/-- Source lines 130-135: the reinitialised cumulative exclusion region:
the positives, slop-expanded by half the window length when
`jitter_mode` is `"sliding"`, merged with the blacklist when present. -/
def initialExcl (ops : ExtOps) (g : GenState) : List Interval :=
  let base := if g.jitter_mode = some "sliding" then ops.slopHalfWin g.master_bed
    else g.master_bed
  match g.blacklist with
  | some bl => ops.mergeCat base bl
  | none => base

/-- Source `MultiBedGenerator._reset_negatives` (lines 121-135). -/
def resetNegatives (ops : ExtOps) (g : GenState) : Except PyExn GenState :=
  match resetPool g.negRatioVal g.master_bed with
  | Except.error e => Except.error e
  | Except.ok pool =>
    Except.ok { g with
      negative_windows_epoch_i := pool,
      cumulative_excl_bt := initialExcl ops g }

/-- Source lines 154-157: the epoch interval table
`pd.concat([master_bed.df, negative_windows_epoch_i.df])`, permuted by
`sklearn.utils.shuffle` when `shuffle` is set (`perm` is the permutation
that call draws). -/
def epochTable (shuffle : Bool) (perm : List Interval → List Interval)
    (master pool : List Interval) : List Interval :=
  if shuffle then perm (master ++ pool) else master ++ pool

/-- Source `MultiBedGenerator.on_epoch_end` (lines 137-157). `shuffleBt`
is the external `negative_windows_epoch_i.bt.shuffle(excl=...,
noOverlapping=True, seed=...)` call, applied to the pool and the grown
exclusion region: it returns the re-placed pool, or raises
`BEDToolsError` when no overlap-free placement exists (`Except.error`).
The `cat(..., postmerge=False)` that grows the exclusion region runs
before the shuffle, so the grown region is in place when the exhaustion
handler calls `_reset_negatives`. -/
def on_epoch_end (ops : ExtOps)
    (shuffleBt : List Interval → List Interval → Except Unit (List Interval))
    (perm : List Interval → List Interval) (g : GenState) : Except PyExn GenState :=
  let g1 := { g with epoch_i := g.epoch_i + 1 }
  if 0 < g1.epoch_i ∧ g1.shuffle = false then Except.ok g1
  else
    let excl2 := g1.cumulative_excl_bt ++ g1.negative_windows_epoch_i
    match shuffleBt g1.negative_windows_epoch_i excl2 with
    | Except.ok negs =>
      let g2 := { g1 with cumulative_excl_bt := excl2, negative_windows_epoch_i := negs }
      let tbl := epochTable g2.shuffle perm g2.master_bed g2.negative_windows_epoch_i
      Except.ok { g2 with intervals_df_epoch_i := some tbl }
    | Except.error _ =>
      match resetNegatives ops { g1 with cumulative_excl_bt := excl2 } with
      | Except.error e => Except.error e
      | Except.ok g2 =>
        let tbl := epochTable g2.shuffle perm g2.master_bed g2.negative_windows_epoch_i
        Except.ok { g2 with intervals_df_epoch_i := some tbl }

/-- Trivial collaborator operations for concrete evaluations. -/
def opsId : ExtOps := ⟨fun l => l, fun a b => a ++ b⟩

/-- A concrete generator state with one positive interval and the given
negatives ratio, as right after `__init__` reaches line 59. -/
def gExample (r : ℚ) : GenState :=
  { master_bed := [⟨"chr1", 1000, 1100⟩]
    blacklist := none
    negRatioVal := r
    window_len := 200
    jitter_mode := none
    shuffle := true
    epoch_i := -1
    intervals_df_epoch_i := none
    negative_windows_epoch_i := []
    cumulative_excl_bt := [] }

/-- C1: the claim describes the reset pool as empty for ratio 0, the
positive set for ratio 1, and the positive set replicated `ratio` times
for every integer ratio above 1. The first two cases hold, but at any
ratio above 1 `_reset_negatives` reads `self.bed`, which is not an
attribute of the generator (the merged positive set is `master_bed`), so
it raises `AttributeError` instead of building the replicated pool. -/
theorem c1_reset_pool :
    resetNegatives opsId (gExample 2) = Except.error (PyExn.attrError "bed")
    ∧ resetNegatives opsId (gExample 1) = Except.ok
        { gExample 1 with
          negative_windows_epoch_i := (gExample 1).master_bed,
          cumulative_excl_bt := initialExcl opsId (gExample 1) }
    ∧ resetNegatives opsId (gExample 0) = Except.ok
        { gExample 0 with
          negative_windows_epoch_i := [],
          cumulative_excl_bt := initialExcl opsId (gExample 0) } := by
  refine ⟨?_, ?_, ?_⟩ <;> rfl

/-- C2: for every constructible generator state (the negatives ratio is
at most 1 — construction with a larger ratio already fails in
`_reset_negatives`, see C1) whose `on_epoch_end` call enters the sampling
branch, if the interval-set shuffle raises the exhaustion error then
`on_epoch_end` still returns normally: it resets the negative pool and
the cumulative exclusion region to their initial positives-plus-blacklist
state and produces an epoch interval table. -/
theorem c2_exhaustion_recovered (ops : ExtOps)
    (shuffleBt : List Interval → List Interval → Except Unit (List Interval))
    (perm : List Interval → List Interval) (g : GenState)
    (hrle : g.negRatioVal ≤ 1)
    (hactive : g.shuffle = true ∨ g.epoch_i < 0)
    (hfail : shuffleBt g.negative_windows_epoch_i
        (g.cumulative_excl_bt ++ g.negative_windows_epoch_i) = Except.error ()) :
    on_epoch_end ops shuffleBt perm g = Except.ok
      { g with
        epoch_i := g.epoch_i + 1,
        negative_windows_epoch_i := if g.negRatioVal = 1 then g.master_bed else [],
        cumulative_excl_bt := initialExcl ops g,
        intervals_df_epoch_i := some (epochTable g.shuffle perm g.master_bed
          (if g.negRatioVal = 1 then g.master_bed else [])) } := by
  have hcond : ¬(0 < g.epoch_i + 1 ∧ g.shuffle = false) := by
    rcases hactive with h | h
    · rintro ⟨-, h2⟩
      rw [h] at h2
      exact Bool.noConfusion h2
    · rintro ⟨h1, -⟩
      omega
  have hnotlt : ¬(1 < g.negRatioVal) := not_lt.mpr hrle
  simp only [on_epoch_end, resetNegatives, resetPool, initialExcl, hfail, hnotlt,
    if_false, if_neg hcond]
  by_cases hr1 : g.negRatioVal = 1 <;> simp [hr1]

/-- The external shuffle call failing with the exhaustion error. -/
def shFailEx : List Interval → List Interval → Except Unit (List Interval) :=
  fun _ _ => Except.error ()

/-- The identity permutation. -/
def permId : List Interval → List Interval := fun l => l

/-- C2 witness at a concrete state (ratio 1, shuffle on, first call). -/
theorem c2_exhaustion_recovered_witness :
    on_epoch_end opsId shFailEx permId (gExample 1) = Except.ok
      { gExample 1 with
        epoch_i := (gExample 1).epoch_i + 1,
        negative_windows_epoch_i :=
          if (gExample 1).negRatioVal = 1 then (gExample 1).master_bed else [],
        cumulative_excl_bt := initialExcl opsId (gExample 1),
        intervals_df_epoch_i := some (epochTable (gExample 1).shuffle permId
          (gExample 1).master_bed
          (if (gExample 1).negRatioVal = 1 then (gExample 1).master_bed else [])) } :=
  c2_exhaustion_recovered opsId shFailEx permId (gExample 1)
    (by norm_num [gExample]) (Or.inl rfl) rfl

theorem on_epoch_end_noop (ops : ExtOps)
    (shuffleBt : List Interval → List Interval → Except Unit (List Interval))
    (perm : List Interval → List Interval) (g : GenState)
    (hsh : g.shuffle = false) (hep : 0 ≤ g.epoch_i) :
    on_epoch_end ops shuffleBt perm g = Except.ok { g with epoch_i := g.epoch_i + 1 } := by
  have h1 : 0 < g.epoch_i + 1 := by omega
  simp [on_epoch_end, hsh, h1]

/-- `on_epoch_end` iterated over successive epochs, with fresh external
randomness (`opsF i`, `shF i`, `pmF i`) at each call. -/
def iterEpochs : ℕ → (ℕ → ExtOps)
    → (ℕ → List Interval → List Interval → Except Unit (List Interval))
    → (ℕ → List Interval → List Interval) → GenState → Except PyExn GenState
  | 0, _, _, _, g => Except.ok g
  | n + 1, opsF, shF, pmF, g =>
    match on_epoch_end (opsF 0) (shF 0) (pmF 0) g with
    | Except.error e => Except.error e
    | Except.ok g2 =>
      iterEpochs n (fun i => opsF (i + 1)) (fun i => shF (i + 1)) (fun i => pmF (i + 1)) g2

theorem iterEpochs_noop : ∀ (n : ℕ) (opsF : ℕ → ExtOps)
    (shF : ℕ → List Interval → List Interval → Except Unit (List Interval))
    (pmF : ℕ → List Interval → List Interval) (g : GenState),
    g.shuffle = false → 0 ≤ g.epoch_i →
    iterEpochs n opsF shF pmF g = Except.ok { g with epoch_i := g.epoch_i + (n : ℤ) } := by
  intro n
  induction n with
  | zero =>
    intro opsF shF pmF g hsh hep
    cases g
    simp [iterEpochs]
  | succ n ih =>
    intro opsF shF pmF g hsh hep
    simp only [iterEpochs]
    rw [on_epoch_end_noop _ _ _ g hsh hep]
    have hep2 : 0 ≤ ({ g with epoch_i := g.epoch_i + 1 } : GenState).epoch_i := by
      simp only []
      omega
    show iterEpochs n (fun i => opsF (i + 1)) (fun i => shF (i + 1)) (fun i => pmF (i + 1))
        { g with epoch_i := g.epoch_i + 1 } = _
    rw [ih (fun i => opsF (i + 1)) (fun i => shF (i + 1)) (fun i => pmF (i + 1))
      { g with epoch_i := g.epoch_i + 1 } hsh hep2]
    congr 2
    push_cast
    ring

/-- C6: with `shuffle` false, every `on_epoch_end` call after the first
(epoch counter already at 0 or more) changes nothing but the epoch
counter, so the epoch interval table — and all other state — observed
after five further calls is identical to the epoch-0 one. -/
theorem c6_no_shuffle_frozen (ops : ExtOps)
    (shuffleBt : List Interval → List Interval → Except Unit (List Interval))
    (perm : List Interval → List Interval)
    (opsF : ℕ → ExtOps)
    (shF : ℕ → List Interval → List Interval → Except Unit (List Interval))
    (pmF : ℕ → List Interval → List Interval) (g : GenState)
    (hsh : g.shuffle = false) (hep : 0 ≤ g.epoch_i) :
    on_epoch_end ops shuffleBt perm g = Except.ok { g with epoch_i := g.epoch_i + 1 }
    ∧ iterEpochs 5 opsF shF pmF g = Except.ok { g with epoch_i := g.epoch_i + 5 } := by
  refine ⟨on_epoch_end_noop ops shuffleBt perm g hsh hep, ?_⟩
  have h := iterEpochs_noop 5 opsF shF pmF g hsh hep
  norm_num at h
  exact h

/-- The frozen-table state: shuffle off, one epoch already scheduled. -/
def gFrozen : GenState :=
  { gExample 1 with
    shuffle := false
    epoch_i := 0
    intervals_df_epoch_i := some [⟨"chr1", 1000, 1100⟩] }

/-- C6 witness at a concrete state. -/
theorem c6_no_shuffle_frozen_witness :
    on_epoch_end opsId shFailEx permId gFrozen
      = Except.ok { gFrozen with epoch_i := gFrozen.epoch_i + 1 }
    ∧ iterEpochs 5 (fun _ => opsId) (fun _ => shFailEx) (fun _ => permId) gFrozen
      = Except.ok { gFrozen with epoch_i := gFrozen.epoch_i + 5 } :=
  c6_no_shuffle_frozen opsId shFailEx permId (fun _ => opsId) (fun _ => shFailEx)
    (fun _ => permId) gFrozen rfl (by norm_num [gFrozen, gExample])

/-- Source line 45: the recognized jitter modes
`['sliding', 'detection', None]`. -/
def jitter_modes : List (Option String) := [some "sliding", some "detection", none]

/-- Source lines 33-48: the construction-time validation performed by
`__init__` on `window_len`, `seq_len` and `jitter_mode`. `window_len` is
modelled as an integer, so the `type(window_len) is not int` part of the
line-34 test is always passed; the numeric part of that test is
`window_len < 0`. -/
def validateInit (window_len seq_len : ℤ) (jitter_mode : Option String) :
    Except PyExn Unit :=
  if window_len < 0 then
    Except.error (PyExn.valueError "window_len must be positive integer")
  else if seq_len ≤ window_len then
    Except.error (PyExn.valueError "seq_len must be > window_len")
  else if jitter_mode ∉ jitter_modes then
    Except.error (PyExn.valueError "Invalid jitter mode")
  else Except.ok ()

/-- C7: the claim (and the code's own error message) requires rejecting
every non-positive `window_len`, including 0; the code's test is
`window_len < 0`, so `window_len = 0` is accepted without any error. The
`seq_len > window_len` and `jitter_mode` validations behave as claimed,
and valid configurations raise nothing. -/
theorem c7_validate_window_len_zero :
    validateInit 0 1024 (some "sliding") = Except.ok ()
    ∧ validateInit (-5) 1024 (some "sliding")
        = Except.error (PyExn.valueError "window_len must be positive integer")
    ∧ validateInit 200 200 (some "sliding")
        = Except.error (PyExn.valueError "seq_len must be > window_len")
    ∧ validateInit 200 1024 (some "bogus")
        = Except.error (PyExn.valueError "Invalid jitter mode")
    ∧ validateInit 200 1024 none = Except.ok () := by
  refine ⟨?_, ?_, ?_, ?_, ?_⟩ <;> rfl

end GenomeLoader
